import Mathlib

/- A verification development of the honey-site healthcare-benchmark pipeline.
   The Python data pipeline (src/main.py, src/src/process_data.py,
   src/src/fetch_data.py, src/src/config.py) is shallowly embedded as Lean
   functions over typed rows: scores are rationals, release dates integers
   (days since an epoch), missing CSV cells are Option values, and fallible
   operations return Except values. -/

/-! ## Module names and Python import semantics (src/main.py line 19) -/

/-- The top-level function names defined by the module src/src/process_data.py. -/
def process_data_defs : List String :=
  ["filter_mast_metrics", "merge_with_dates", "prepare_chart_data"]

/-- The names src/main.py requests from src.process_data (line 19). -/
def main_imports_from_process_data : List String :=
  ["filter_mast_metrics", "merge_with_dates", "calculate_frontier"]

/-- Every top-level function name defined across the package: modules
src/src/fetch_data.py, src/src/process_data.py, src/src/visualize.py and
the entry module src/main.py (src/src/config.py defines only constants). -/
def package_function_defs : List String :=
  ["fetch_mast_metrics", "load_release_dates", "load_benchmark_data",
   "load_all_benchmarks", "load_benchmark_metadata",
   "filter_mast_metrics", "merge_with_dates", "prepare_chart_data",
   "create_benchmark_chart", "_decode_binary_data",
   "create_tabbed_benchmark_page", "create_frontier_chart", "save_chart",
   "load_mast_data", "load_other_benchmark", "main"]

/-- Python from-import semantics: importing a list of names from a module
succeeds iff every requested name is defined by that module; otherwise the
interpreter raises ImportError at the first missing name, before any of the
importing module's statements run. -/
def fromImport (defined requested : List String) : Except String Unit :=
  match requested.find? (fun n => !defined.contains n) with
  | some n => Except.error ("ImportError: cannot import name " ++ n)
  | none => Except.ok ()

/-- The entry module src/main.py: its body (here abstracted as `pipeline`,
standing for everything after the import statements, including the call to
main at the bottom of the file) runs only when its from-import of
filter_mast_metrics, merge_with_dates and calculate_frontier succeeds. -/
def main_module {α : Type} (pipeline : Unit → α) : Except String α :=
  match fromImport process_data_defs main_imports_from_process_data with
  | Except.error e => Except.error e
  | Except.ok _ => Except.ok (pipeline ())

/-! ## MAST rows and the filter stage (src/src/process_data.py lines 9-34,
src/src/config.py lines 107-111) -/

/-- One row of the raw MAST metrics CSV, with the columns the pipeline reads.
A missing Provider cell is none. -/
structure MastRow where
  Team : String
  Condition : String
  Metric : String
  Model : String
  Provider : Option String
  mean : ℚ
  ci : ℚ
deriving DecidableEq

structure FilterConfig where
  team : String
  condition : String
  metric : String
deriving DecidableEq

/-- FILTER_CONFIG of src/src/config.py lines 107-111. -/
def FILTER_CONFIG : FilterConfig :=
  { team := "Solo Models", condition := "Advisor", metric := "OverallScore" }

/-- A row after filter_mast_metrics: the categorical columns survive, and
Model, Provider, mean, ci are renamed to model, provider, score, ci_width. -/
structure FilteredRow where
  Team : String
  Condition : String
  Metric : String
  model : String
  provider : Option String
  score : ℚ
  ci_width : ℚ
deriving DecidableEq

/-- The column renaming of src/src/process_data.py lines 26-31. -/
def renameColumns (r : MastRow) : FilteredRow :=
  { Team := r.Team, Condition := r.Condition, Metric := r.Metric,
    model := r.Model, provider := r.Provider, score := r.mean,
    ci_width := r.ci }

/-- filter_mast_metrics (src/src/process_data.py lines 9-34): keep the rows
whose Team, Condition and Metric equal the configured predicates, then rename
columns. The row-count print is informational only and not modelled. -/
def filter_mast_metrics (df : List MastRow) : List FilteredRow :=
  (df.filter (fun r =>
      r.Team == FILTER_CONFIG.team && r.Condition == FILTER_CONFIG.condition &&
        r.Metric == FILTER_CONFIG.metric)).map renameColumns

/-! ## The merge stage (src/src/process_data.py lines 37-63) -/

/-- One row of the curated release-dates CSV: model, release date, and an
optional provider override (a missing cell is none). -/
structure DatesRow where
  model : String
  release_date : ℤ
  provider : Option String
deriving DecidableEq

/-- One row of the merged table. pandas carries every column of both frames
through the merge, so the categorical columns of the metrics side survive. -/
structure MergedRow where
  Team : String
  Condition : String
  Metric : String
  model : String
  provider : Option String
  score : ℚ
  ci_width : ℚ
  release_date : ℤ
deriving DecidableEq

/-- The merged row produced for one matching pair, with the provider
preference of src/src/process_data.py lines 57-60 applied: the suffixed
provider columns are combined by fillna, so the dates-side value wins when
present and the metrics-side value is the fallback. -/
def matchRow (m : FilteredRow) (d : DatesRow) : MergedRow :=
  { Team := m.Team, Condition := m.Condition, Metric := m.Metric,
    model := m.model,
    provider := match d.provider with
      | some p => some p
      | none => m.provider,
    score := m.score, ci_width := m.ci_width,
    release_date := d.release_date }

/-- merge_with_dates (src/src/process_data.py lines 37-63):
pd.merge(metrics_df, dates_df, on = model, how = inner) emits, for each left
row in order, one output row per right row whose model matches (a score row
with no match is silently dropped), followed by the provider fillna step. -/
def merge_with_dates : List FilteredRow → List DatesRow → List MergedRow
  | [], _ => []
  | m :: ms, dates =>
      (dates.filter (fun d => m.model == d.model)).map (matchRow m)
        ++ merge_with_dates ms dates

/-! ## Frontier Calculator (spec section 4.3). src/main.py line 19 imports
calculate_frontier from src.process_data and line 133 calls it, but no module
of the repository defines it; the stage is modelled from the spec. -/

/-- A scored model row as the Frontier Calculator consumes it. -/
structure ScoredRow where
  model : String
  score : ℚ
  release_date : ℤ
deriving DecidableEq

/-- One emitted frontier point. -/
structure FrontierPoint where
  model : String
  release_date : ℤ
  score_pct : ℚ
  benchmark_name : String
deriving DecidableEq

/-- Chronological order on scored rows: by release date. -/
def dateLE (a b : ScoredRow) : Prop := a.release_date ≤ b.release_date

instance : DecidableRel dateLE := fun a b =>
  inferInstanceAs (Decidable (a.release_date ≤ b.release_date))

instance : IsTotal ScoredRow dateLE :=
  ⟨fun a b => Int.le_total a.release_date b.release_date⟩

instance : IsTrans ScoredRow dateLE := ⟨fun _ _ _ hab hbc => le_trans hab hbc⟩

/-- Modelled from the spec: the ascending stable sort by release_date of
section 4.3 (ties broken by original order); insertion sort is stable. -/
def sortByDate (rows : List ScoredRow) : List ScoredRow :=
  List.insertionSort dateLE rows

/-- Modelled from the spec: the left-to-right scan of section 4.3, keeping
the running maximum score seen so far and emitting exactly the rows whose
score strictly exceeds it (the first row is always a new maximum). -/
def frontierScan : Option ℚ → List ScoredRow → List ScoredRow
  | _, [] => []
  | none, r :: rs => r :: frontierScan (some r.score) rs
  | some best, r :: rs =>
      if best < r.score then r :: frontierScan (some r.score) rs
      else frontierScan (some best) rs

/-- The maximum observed raw score of the input (none when empty). -/
def maxRaw : List ScoredRow → Option ℚ
  | [] => none
  | r :: rs => some (rs.foldl (fun acc x => max acc x.score) r.score)

/-- Modelled from the spec: the raw-to-percentage conversion rule of section
4.3 — when the maximum observed raw score is at most 1.5 every score is
multiplied by 100, otherwise every score is kept as-is. -/
def scaleFactor (rows : List ScoredRow) : ℚ :=
  match maxRaw rows with
  | none => 1
  | some m => if m ≤ 3 / 2 then 100 else 1

/-- Modelled from the spec: calculate_frontier, the function src/main.py
imports from src.process_data but which is missing from the repository.
Spec section 4.3: sort ascending by release_date (stable), scan left to
right keeping a running maximum, emit a point whenever it strictly
increases, and convert raw scores to 0-100 percentages by the
maximum-raw-score heuristic. -/
def calculate_frontier (rows : List ScoredRow) (benchmark_name : String) :
    List FrontierPoint :=
  (frontierScan none (sortByDate rows)).map (fun r =>
    { model := r.model, release_date := r.release_date,
      score_pct := r.score * scaleFactor rows,
      benchmark_name := benchmark_name })

/-! ## Benchmark loading (src/src/fetch_data.py, src/main.py lines 47-63) -/

/-- One row of a pre-curated benchmark CSV. -/
structure BenchRow where
  model : String
  score : ℚ
  release_date : ℤ
deriving DecidableEq

/-- One entry of the BENCHMARKS table of src/src/config.py: its id, display
name and local data file name. -/
structure BenchmarkConfig where
  id : String
  name : String
  data_file : String
deriving DecidableEq

/-- The BENCHMARKS table of src/src/config.py lines 31-79. -/
def BENCHMARKS : List BenchmarkConfig :=
  [{ id := "mast", name := "MAST", data_file := "metrics.csv" },
   { id := "healthbench", name := "HealthBench",
     data_file := "healthbench_scores.csv" },
   { id := "medqa", name := "MedQA", data_file := "medqa_scores.csv" },
   { id := "medhelm", name := "MedHELM", data_file := "medhelm_scores.csv" }]

/-- The local data directory, as a map from file name to parsed contents of
the file when it exists. -/
def DataDir : Type := String → Option (List BenchRow)

/-- The errors load_benchmark_data can raise: ValueError for an unknown
benchmark id, FileNotFoundError for a missing data file. -/
inductive LoadError where
  | valueError (msg : String)
  | fileNotFoundError (path : String)
deriving DecidableEq

/-- A benchmark row tagged with benchmark metadata. -/
structure LoadedRow where
  model : String
  score : ℚ
  release_date : ℤ
  benchmark_id : String
  benchmark_name : String
deriving DecidableEq

/-- load_benchmark_data (src/src/fetch_data.py lines 51-83): an unknown id
raises ValueError, a missing data file raises FileNotFoundError, and
otherwise the rows are read and tagged with the benchmark id and name. -/
def load_benchmark_data (fs : DataDir) (benchmark_id : String) :
    Except LoadError (List LoadedRow) :=
  match BENCHMARKS.find? (fun b => b.id == benchmark_id) with
  | none => Except.error (LoadError.valueError benchmark_id)
  | some b =>
      match fs b.data_file with
      | none => Except.error (LoadError.fileNotFoundError b.data_file)
      | some rows => Except.ok (rows.map (fun r =>
          { model := r.model, score := r.score,
            release_date := r.release_date,
            benchmark_id := b.id, benchmark_name := b.name }))

/-- The loop of load_all_benchmarks over a list of configured benchmarks:
FileNotFoundError is caught, a warning printed, and the source skipped with
the loop continuing; any other error propagates out of the loop. -/
def load_all_from (fs : DataDir) :
    List BenchmarkConfig → Except LoadError (List (String × List LoadedRow))
  | [] => Except.ok []
  | b :: bs =>
      match load_benchmark_data fs b.id with
      | Except.ok rows =>
          match load_all_from fs bs with
          | Except.ok rest => Except.ok ((b.id, rows) :: rest)
          | Except.error e => Except.error e
      | Except.error (LoadError.fileNotFoundError _) => load_all_from fs bs
      | Except.error e => Except.error e

/-- load_all_benchmarks (src/src/fetch_data.py lines 86-107). -/
def load_all_benchmarks (fs : DataDir) :
    Except LoadError (List (String × List LoadedRow)) :=
  load_all_from fs BENCHMARKS

/-- Descending order on scores, as pandas sort_values with ascending false. -/
def scoreGE (a b : BenchRow) : Prop := b.score ≤ a.score

instance : DecidableRel scoreGE := fun a b =>
  inferInstanceAs (Decidable (b.score ≤ a.score))

/-- load_other_benchmark (src/main.py lines 47-63): an unknown id is a
KeyError (none); a missing data file prints a warning and yields an empty
table, skipping the source; present data is read and sorted by score
descending. -/
def load_other_benchmark (fs : DataDir) (benchmark_id : String) :
    Option (List BenchRow) :=
  match BENCHMARKS.find? (fun b => b.id == benchmark_id) with
  | none => none
  | some b =>
      match fs b.data_file with
      | none => some []
      | some rows => some (List.insertionSort scoreGE rows)

/-! ## fetch_mast_metrics (src/src/fetch_data.py lines 10-34) -/

/-- The world fetch_mast_metrics sees: the cache file's parsed contents when
it exists, and what the remote URL currently serves. -/
structure FetchWorld where
  cache : Option (List MastRow)
  remote : List MastRow
deriving DecidableEq

/-- What one call to fetch_mast_metrics produces: the returned table, the
world after the call, and whether a network download happened. -/
structure FetchResult where
  result : List MastRow
  world : FetchWorld
  downloaded : Bool
deriving DecidableEq

/-- fetch_mast_metrics: when the cache file exists and force_refresh is
false, the cached CSV is parsed and returned with no network access and no
write; otherwise the remote CSV is downloaded, written to the cache path and
returned. -/
def fetch_mast_metrics (w : FetchWorld) (force_refresh : Bool) : FetchResult :=
  match w.cache, force_refresh with
  | some cached, false => { result := cached, world := w, downloaded := false }
  | _, _ =>
      { result := w.remote,
        world := { w with cache := some w.remote },
        downloaded := true }

/-! ## Concrete example data used to exercise the definitions -/

/-- A raw MAST row that passes the configured filter. -/
def exMastA : MastRow :=
  { Team := "Solo Models", Condition := "Advisor", Metric := "OverallScore",
    Model := "GPT-4o", Provider := some "OpenAI", mean := mkRat 57 100,
    ci := mkRat 1 50 }

/-- A raw MAST row that fails the configured filter on Team. -/
def exMastB : MastRow :=
  { Team := "Multi Agent", Condition := "Advisor", Metric := "OverallScore",
    Model := "AgentMix", Provider := none, mean := mkRat 1 2, ci := mkRat 1 50 }

/-- A release-date entry matching exMastA's model. -/
def exDateA : DatesRow :=
  { model := "GPT-4o", release_date := 738281, provider := some "OpenAI" }

def exFilteredA : FilteredRow := renameColumns exMastA

def exMergedA : MergedRow := matchRow exFilteredA exDateA

/-- Two score rows sharing one model key. -/
def dupMetrics : List FilteredRow :=
  [{ Team := "Solo Models", Condition := "Advisor", Metric := "OverallScore",
     model := "A", provider := none, score := mkRat 1 2, ci_width := 0 },
   { Team := "Solo Models", Condition := "Advisor", Metric := "OverallScore",
     model := "A", provider := none, score := mkRat 3 5, ci_width := 0 }]

/-- Two release-date entries sharing that same model key. -/
def dupDates : List DatesRow :=
  [{ model := "A", release_date := 0, provider := none },
   { model := "A", release_date := 1, provider := none }]

/-- A metrics table with distinct model keys. -/
def uniqMetrics : List FilteredRow :=
  [{ Team := "Solo Models", Condition := "Advisor", Metric := "OverallScore",
     model := "A", provider := none, score := mkRat 1 2, ci_width := 0 },
   { Team := "Solo Models", Condition := "Advisor", Metric := "OverallScore",
     model := "B", provider := some "Anthropic", score := mkRat 3 5,
     ci_width := 0 }]

/-- A release-date table with distinct model keys; B has no provider. -/
def uniqDates : List DatesRow :=
  [{ model := "A", release_date := 10, provider := some "OpenAI" },
   { model := "B", release_date := 20, provider := none }]

/-- A score row with no matching model in uniqDates. -/
def unmatchedRow : FilteredRow :=
  { Team := "Solo Models", Condition := "Advisor", Metric := "OverallScore",
    model := "Z", provider := none, score := mkRat 9 10, ci_width := 0 }

/-- The three scored rows of the spec's section 8 scenario, with raw scores
as 0-1 fractions. -/
def exScoredRows : List ScoredRow :=
  [{ model := "A", score := mkRat 1 2, release_date := 0 },
   { model := "B", score := mkRat 3 5, release_date := 151 },
   { model := "C", score := mkRat 11 20, release_date := 365 }]

/-- A data directory with no files at all. -/
def emptyDataDir : DataDir := fun _ => none

/-- The BENCHMARKS entry for MAST. -/
def mastConfig : BenchmarkConfig :=
  { id := "mast", name := "MAST", data_file := "metrics.csv" }

/-- A world whose cache file does not exist yet. -/
def exWorldEmpty : FetchWorld := { cache := none, remote := [exMastA] }

/-- A world whose cache file already holds data. -/
def exWorldCached : FetchWorld :=
  { cache := some [exMastB], remote := [exMastA] }

/-! ## Theorems -/

/-- C1: src/main.py line 19 imports calculate_frontier from src.process_data,
but no module of the package defines a function of that name, so importing
the entry module raises ImportError: whatever the rest of main.py would do
(`pipeline`), the run is that ImportError and no pipeline stage ever runs. -/
theorem main_import_fails (α : Type) (pipeline : Unit → α) :
    main_module pipeline =
      Except.error "ImportError: cannot import name calculate_frontier" ∧
    package_function_defs.contains "calculate_frontier" = false :=
  ⟨rfl, rfl⟩

/-- Every row filter_mast_metrics keeps satisfies the three configured
equality predicates. -/
theorem filter_mast_mem (df : List MastRow) (r : FilteredRow)
    (h : r ∈ filter_mast_metrics df) :
    r.Team = FILTER_CONFIG.team ∧ r.Condition = FILTER_CONFIG.condition ∧
      r.Metric = FILTER_CONFIG.metric := by
  unfold filter_mast_metrics at h
  rcases List.mem_map.mp h with ⟨a, ha, rfl⟩
  rcases List.mem_filter.mp ha with ⟨-, hpred⟩
  simp only [Bool.and_eq_true, beq_iff_eq] at hpred
  exact ⟨hpred.1.1, hpred.1.2, hpred.2⟩

/-- Every row of the merged output arises from one metrics row and one
matching dates row. -/
theorem mem_merge_with_dates {row : MergedRow} :
    ∀ {ms : List FilteredRow} {ds : List DatesRow},
      row ∈ merge_with_dates ms ds →
      ∃ m ∈ ms, ∃ d ∈ ds, m.model = d.model ∧ row = matchRow m d := by
  intro ms
  induction ms with
  | nil => intro ds h; simp [merge_with_dates] at h
  | cons m ms ih =>
    intro ds h
    simp only [merge_with_dates, List.mem_append] at h
    rcases h with h | h
    · rcases List.mem_map.mp h with ⟨d, hd, rfl⟩
      rcases List.mem_filter.mp hd with ⟨hds, hbeq⟩
      exact ⟨m, by simp, d, hds, by simpa using hbeq, rfl⟩
    · rcases ih h with ⟨m', hm', d, hd, heq, hrow⟩
      exact ⟨m', by simp [hm'], d, hd, heq, hrow⟩

/-- C4: every row of the Filter/Merge stage's output (the filtered metrics
merged with the release dates) has its Team, Condition and Metric columns
exactly equal to the three configured filter predicate values. -/
theorem filter_merge_rows_match_config (df : List MastRow)
    (dates : List DatesRow) (row : MergedRow)
    (h : row ∈ merge_with_dates (filter_mast_metrics df) dates) :
    row.Team = FILTER_CONFIG.team ∧ row.Condition = FILTER_CONFIG.condition ∧
      row.Metric = FILTER_CONFIG.metric := by
  rcases mem_merge_with_dates h with ⟨m, hm, d, hd, -, rfl⟩
  exact filter_mast_mem df m hm

/-- C4 witness: the concrete one-row tables exercise the theorem. -/
theorem filter_merge_scenario :
    exMergedA ∈ merge_with_dates (filter_mast_metrics [exMastA, exMastB])
      [exDateA] ∧
    (exMergedA.Team = FILTER_CONFIG.team ∧
      exMergedA.Condition = FILTER_CONFIG.condition ∧
      exMergedA.Metric = FILTER_CONFIG.metric) :=
  ⟨by decide, filter_merge_rows_match_config [exMastA, exMastB] [exDateA]
    exMergedA (by decide)⟩

/-- C6: the merged provider column prefers the release-date table's value and
falls back to the metrics table's value when the date table's is absent. -/
theorem merge_provider_preference (metrics : List FilteredRow)
    (dates : List DatesRow) (row : MergedRow)
    (h : row ∈ merge_with_dates metrics dates) :
    ∃ m ∈ metrics, ∃ d ∈ dates, m.model = d.model ∧ row = matchRow m d ∧
      (∀ p, d.provider = some p → row.provider = some p) ∧
      (d.provider = none → row.provider = m.provider) := by
  rcases mem_merge_with_dates h with ⟨m, hm, d, hd, heq, rfl⟩
  refine ⟨m, hm, d, hd, heq, rfl, ?_, ?_⟩
  · intro p hp; simp [matchRow, hp]
  · intro hp; simp [matchRow, hp]

/-- C6 witness: a merged row at a dates entry carrying a provider value. -/
theorem merge_provider_scenario :
    exMergedA ∈ merge_with_dates [exFilteredA] [exDateA] ∧
    (∃ m ∈ [exFilteredA], ∃ d ∈ [exDateA], m.model = d.model ∧
      exMergedA = matchRow m d ∧
      (∀ p, d.provider = some p → exMergedA.provider = some p) ∧
      (d.provider = none → exMergedA.provider = m.provider)) :=
  ⟨by decide, merge_provider_preference [exFilteredA] [exDateA] exMergedA
    (by decide)⟩

/-- C7: a score row whose model matches no entry of the release-date table is
silently omitted: the merge of the remaining rows is unchanged, and no merged
row carries that model. The embedding is a total function, so no error is
raised. -/
theorem merge_drops_unmatched (m : FilteredRow) (ms : List FilteredRow)
    (dates : List DatesRow) (h : ∀ d ∈ dates, d.model ≠ m.model) :
    merge_with_dates (m :: ms) dates = merge_with_dates ms dates ∧
    ∀ row ∈ merge_with_dates (m :: ms) dates, row.model ≠ m.model := by
  have hfilter : dates.filter (fun d => m.model == d.model) = [] := by
    rw [List.filter_eq_nil_iff]
    intro d hd
    simp [Ne.symm (h d hd)]
  constructor
  · simp [merge_with_dates, hfilter]
  · intro row hrow
    rcases mem_merge_with_dates hrow with ⟨m', hm', d, hd, heq, rfl⟩
    have hmodel : (matchRow m' d).model = d.model := heq
    rw [hmodel]
    exact h d hd

/-- C7 witness: the model Z row has no date entry and vanishes from the
merge. -/
theorem merge_drops_scenario :
    (∀ d ∈ uniqDates, d.model ≠ unmatchedRow.model) ∧
    (merge_with_dates (unmatchedRow :: uniqMetrics) uniqDates =
        merge_with_dates uniqMetrics uniqDates ∧
      ∀ row ∈ merge_with_dates (unmatchedRow :: uniqMetrics) uniqDates,
        row.model ≠ unmatchedRow.model) :=
  ⟨by decide, merge_drops_unmatched unmatchedRow uniqMetrics uniqDates
    (by decide)⟩

/-- C8: an empty input table yields an empty output table at every stage:
the filter, the merge (on either side) and the frontier calculation are
total functions sending empty input to empty output. -/
theorem empty_input_empty_output :
    filter_mast_metrics [] = [] ∧
    (∀ dates : List DatesRow, merge_with_dates [] dates = []) ∧
    (∀ metrics : List FilteredRow, merge_with_dates metrics [] = []) ∧
    (∀ n : String, calculate_frontier [] n = []) := by
  refine ⟨rfl, fun _ => rfl, ?_, fun _ => rfl⟩
  intro metrics
  induction metrics with
  | nil => rfl
  | cons m ms ih => simp [merge_with_dates, ih]

/-- C10: on a first run (no cache file) fetch_mast_metrics downloads the
remote CSV, writes it to the cache path and returns it; on any call where
the cache file exists and force_refresh is false it returns the parsed cache
contents, leaves the world unchanged and performs no network fetch. -/
theorem fetch_cache_behavior (w0 w1 : FetchWorld)
    (h0 : w0.cache = none) (h1 : w1.cache.isSome = true) :
    fetch_mast_metrics w0 false =
      { result := w0.remote, world := { w0 with cache := some w0.remote },
        downloaded := true } ∧
    ∃ c, w1.cache = some c ∧
      fetch_mast_metrics w1 false =
        { result := c, world := w1, downloaded := false } := by
  constructor
  · unfold fetch_mast_metrics
    rw [h0]
  · rcases Option.isSome_iff_exists.mp h1 with ⟨c, hc⟩
    refine ⟨c, hc, ?_⟩
    unfold fetch_mast_metrics
    rw [hc]

/-- C10 witness: a cacheless world and a cached world. -/
theorem fetch_cache_scenario :
    exWorldEmpty.cache = none ∧ exWorldCached.cache.isSome = true ∧
    (fetch_mast_metrics exWorldEmpty false =
        { result := exWorldEmpty.remote,
          world := { exWorldEmpty with cache := some exWorldEmpty.remote },
          downloaded := true } ∧
      ∃ c, exWorldCached.cache = some c ∧
        fetch_mast_metrics exWorldCached false =
          { result := c, world := exWorldCached, downloaded := false }) :=
  ⟨rfl, rfl, fetch_cache_behavior exWorldEmpty exWorldCached rfl rfl⟩

/-- The scan emits a subsequence of its input. -/
theorem frontierScan_sublist (best : Option ℚ) (l : List ScoredRow) :
    List.Sublist (frontierScan best l) l := by
  induction l generalizing best with
  | nil => simp [frontierScan]
  | cons r rs ih =>
    cases best with
    | none => exact (ih (some r.score)).cons₂ r
    | some m =>
      by_cases h : m < r.score
      · simp only [frontierScan, if_pos h]
        exact (ih (some r.score)).cons₂ r
      · simp only [frontierScan, if_neg h]
        exact (ih (some m)).cons r

/-- Every row the scan emits beats the running maximum it started from. -/
theorem frontierScan_lt_scores (l : List ScoredRow) :
    ∀ (m : ℚ) (r : ScoredRow), r ∈ frontierScan (some m) l → m < r.score := by
  induction l with
  | nil => intro m r h; simp [frontierScan] at h
  | cons a rs ih =>
    intro m r h
    by_cases hlt : m < a.score
    · simp only [frontierScan, if_pos hlt, List.mem_cons] at h
      rcases h with rfl | h
      · exact hlt
      · exact hlt.trans (ih a.score r h)
    · simp only [frontierScan, if_neg hlt] at h
      exact ih m r h

/-- The scores of the emitted rows are strictly increasing. -/
theorem frontierScan_chain (l : List ScoredRow) :
    ∀ best : Option ℚ,
      List.Chain' (fun a b : ScoredRow => a.score < b.score)
        (frontierScan best l) := by
  induction l with
  | nil => intro best; simp [frontierScan]
  | cons a rs ih =>
    intro best
    have hcons : List.Chain' (fun x y : ScoredRow => x.score < y.score)
        (a :: frontierScan (some a.score) rs) := by
      rw [List.chain'_cons']
      exact ⟨fun y hy => frontierScan_lt_scores rs a.score y
        (List.mem_of_mem_head? hy), ih (some a.score)⟩
    cases best with
    | none => simpa [frontierScan] using hcons
    | some m =>
      by_cases hlt : m < a.score
      · simpa [frontierScan, if_pos hlt] using hcons
      · simpa [frontierScan, if_neg hlt] using ih (some m)

/-- The stable sort really sorts by release date. -/
theorem sortByDate_sorted (rows : List ScoredRow) :
    List.Pairwise dateLE (sortByDate rows) :=
  List.sorted_insertionSort dateLE rows

/-- The conversion factor is positive. -/
theorem scaleFactor_pos (rows : List ScoredRow) : 0 < scaleFactor rows := by
  unfold scaleFactor
  cases maxRaw rows with
  | none => norm_num
  | some m =>
    dsimp only
    split <;> norm_num

/-- C2: the Frontier Calculator's output has a strictly increasing score_pct
sequence and a non-decreasing release_date sequence. -/
theorem frontier_monotone (rows : List ScoredRow) (benchmark_name : String)
    (hne : rows ≠ []) :
    List.Chain' (· < ·)
      ((calculate_frontier rows benchmark_name).map FrontierPoint.score_pct) ∧
    List.Chain' (· ≤ ·)
      ((calculate_frontier rows benchmark_name).map
        FrontierPoint.release_date) := by
  constructor
  · unfold calculate_frontier
    rw [List.map_map, List.chain'_map]
    exact (frontierScan_chain _ none).imp (fun a b h =>
      mul_lt_mul_of_pos_right h (scaleFactor_pos rows))
  · unfold calculate_frontier
    rw [List.map_map, List.chain'_map]
    have hpair : List.Pairwise dateLE (frontierScan none (sortByDate rows)) :=
      (sortByDate_sorted rows).sublist (frontierScan_sublist none _)
    exact hpair.chain'.imp (fun a b h => h)

/-- C2 witness: the spec's section 8 scenario rows. -/
theorem frontier_monotone_scenario :
    exScoredRows ≠ [] ∧
    (List.Chain' (· < ·)
      ((calculate_frontier exScoredRows "MAST").map FrontierPoint.score_pct) ∧
     List.Chain' (· ≤ ·)
      ((calculate_frontier exScoredRows "MAST").map
        FrontierPoint.release_date)) :=
  ⟨by decide, frontier_monotone exScoredRows "MAST" (by decide)⟩

/-- A fold of max stays at or below a bound respected by all entries. -/
theorem foldl_max_le (c : ℚ) :
    ∀ (l : List ScoredRow) (acc : ℚ), acc ≤ c → (∀ x ∈ l, x.score ≤ c) →
      l.foldl (fun acc x => max acc x.score) acc ≤ c := by
  intro l
  induction l with
  | nil => intro acc h _; simpa using h
  | cons a rs ih =>
    intro acc hacc hall
    simp only [List.foldl_cons]
    exact ih _ (max_le hacc (hall a (by simp)))
      (fun x hx => hall x (by simp [hx]))

/-- When every raw score is at most 1 (and the input is non-empty), the
conversion multiplies by 100. -/
theorem scaleFactor_cons_eq_100 (r : ScoredRow) (rs : List ScoredRow)
    (h : ∀ x ∈ r :: rs, x.score ≤ 1) : scaleFactor (r :: rs) = 100 := by
  have hmax : maxRaw (r :: rs) =
      some (rs.foldl (fun acc x => max acc x.score) r.score) := rfl
  unfold scaleFactor
  rw [hmax]
  dsimp only
  have hle : rs.foldl (fun acc x => max acc x.score) r.score ≤ 1 :=
    foldl_max_le 1 rs r.score (h r (by simp))
      (fun x hx => h x (by simp [hx]))
  rw [if_pos (hle.trans (by norm_num))]

/-- C3: when every raw score is at most 1, every output score_pct is the
raw score of a source row multiplied by 100 (exactly, in the rational
embedding). -/
theorem frontier_scale_by_100 (rows : List ScoredRow)
    (benchmark_name : String) (h : ∀ r ∈ rows, r.score ≤ 1) :
    ∀ p ∈ calculate_frontier rows benchmark_name,
      ∃ r ∈ rows, p.model = r.model ∧ p.release_date = r.release_date ∧
        p.score_pct = r.score * 100 := by
  intro p hp
  unfold calculate_frontier at hp
  rcases List.mem_map.mp hp with ⟨r, hr, rfl⟩
  have hrows : r ∈ rows := by
    have h1 : r ∈ sortByDate rows :=
      (frontierScan_sublist none (sortByDate rows)).subset hr
    exact (List.perm_insertionSort dateLE rows).mem_iff.mp h1
  refine ⟨r, hrows, rfl, rfl, ?_⟩
  cases rows with
  | nil => simp at hrows
  | cons a rs => rw [scaleFactor_cons_eq_100 a rs h]

/-- C3 witness: the scenario rows, all with raw scores at most 1. -/
theorem frontier_scale_scenario :
    (∀ r ∈ exScoredRows, r.score ≤ 1) ∧
    ∀ p ∈ calculate_frontier exScoredRows "MAST",
      ∃ r ∈ exScoredRows, p.model = r.model ∧
        p.release_date = r.release_date ∧ p.score_pct = r.score * 100 :=
  ⟨by decide, frontier_scale_by_100 exScoredRows "MAST" (by decide)⟩

/-- C5 counterexample: with the model key duplicated on both sides (two
score rows and two date rows for model A), the pandas inner merge emits the
cross product — 4 rows — exceeding min 2 2: the claim fails as stated. -/
theorem merge_grows_on_duplicate_keys :
    ¬ ((merge_with_dates dupMetrics dupDates).length ≤
        min dupMetrics.length dupDates.length) := by decide

/-- Filtering a list whose elements satisfy two exclusive predicates splits
its length. -/
theorem length_filter_or_le {α : Type} (p q : α → Bool) :
    ∀ l : List α, (∀ a ∈ l, ¬(p a = true ∧ q a = true)) →
      (l.filter p).length + (l.filter q).length ≤
        (l.filter (fun a => p a || q a)).length := by
  intro l
  induction l with
  | nil => simp
  | cons a l ih =>
    intro h
    have hdis := h a (by simp)
    have ih2 := ih (fun x hx => h x (by simp [hx]))
    by_cases hp : p a = true
    · have hq : q a = false := by
        cases hq : q a
        · rfl
        · exact absurd ⟨hp, hq⟩ hdis
      simp only [List.filter_cons, hp, hq]
      simp only [Bool.true_or, if_true, if_false, List.length_cons]
      simp
      omega
    · rw [Bool.not_eq_true] at hp
      by_cases hq : q a = true
      · simp only [List.filter_cons, hp, hq]
        simp
        omega
      · rw [Bool.not_eq_true] at hq
        simp only [List.filter_cons, hp, hq]
        simp
        exact ih2

/-- With distinct model keys in the dates table, at most one date row
matches any given model. -/
theorem filter_model_length_le_one (x : String) :
    ∀ ds : List DatesRow, (ds.map DatesRow.model).Nodup →
      (ds.filter (fun d => x == d.model)).length ≤ 1 := by
  intro ds
  induction ds with
  | nil => simp
  | cons d ds ih =>
    intro h
    rw [List.map_cons, List.nodup_cons] at h
    by_cases hd : (x == d.model) = true
    · have hx : x = d.model := by simpa using hd
      have hnil : ds.filter (fun d2 => x == d2.model) = [] := by
        rw [List.filter_eq_nil_iff]
        intro d2 hd2 hbeq
        have : d2.model = d.model := by
          have h2 : x = d2.model := by simpa using hbeq
          rw [← h2, hx]
        exact h.1 (List.mem_map.mpr ⟨d2, hd2, this⟩)
      simp [List.filter_cons, hd, hnil]
    · rw [Bool.not_eq_true] at hd
      simp only [List.filter_cons, hd, if_false]
      exact ih h.2

/-- With distinct model keys in the dates table, the merge emits at most one
row per metrics row. -/
theorem merge_length_le_left (dates : List DatesRow)
    (hd : (dates.map DatesRow.model).Nodup) :
    ∀ ms : List FilteredRow, (merge_with_dates ms dates).length ≤ ms.length := by
  intro ms
  induction ms with
  | nil => simp [merge_with_dates]
  | cons m ms ih =>
    simp only [merge_with_dates, List.length_append, List.length_map,
      List.length_cons]
    have h1 := filter_model_length_le_one m.model dates hd
    omega

/-- With distinct model keys in the metrics table, the merge emits at most
one row per matched dates row. -/
theorem merge_length_le_matched (dates : List DatesRow) :
    ∀ ms : List FilteredRow, (ms.map FilteredRow.model).Nodup →
      (merge_with_dates ms dates).length ≤
        (dates.filter (fun d => ms.any (fun m => m.model == d.model))).length := by
  intro ms
  induction ms with
  | nil => simp [merge_with_dates]
  | cons m ms ih =>
    intro h
    rw [List.map_cons, List.nodup_cons] at h
    have hdisj : ∀ d ∈ dates,
        ¬((m.model == d.model) = true ∧
          (ms.any (fun m2 => m2.model == d.model)) = true) := by
      rintro d - ⟨h1, h2⟩
      rcases List.any_eq_true.mp h2 with ⟨m2, hm2, hbeq⟩
      apply h.1
      refine List.mem_map.mpr ⟨m2, hm2, ?_⟩
      have e1 : m.model = d.model := by simpa using h1
      have e2 : m2.model = d.model := by simpa using hbeq
      rw [e2, ← e1]
    calc (merge_with_dates (m :: ms) dates).length
        = (dates.filter (fun d => m.model == d.model)).length +
            (merge_with_dates ms dates).length := by
          simp [merge_with_dates]
      _ ≤ (dates.filter (fun d => m.model == d.model)).length +
            (dates.filter
              (fun d => ms.any (fun m2 => m2.model == d.model))).length := by
          have h2 := ih h.2
          omega
      _ ≤ (dates.filter (fun d => (m.model == d.model) ||
            ms.any (fun m2 => m2.model == d.model))).length :=
          length_filter_or_le _ _ dates hdisj
      _ = (dates.filter
            (fun d => (m :: ms).any (fun m2 => m2.model == d.model))).length := by
          simp [List.any_cons]

/-- C5 amended: when the model keys are unique within each input table —
the uniqueness the spec's data model declares — the inner merge never grows
the row count: the merged row count is at most the minimum of the two input
row counts. -/
theorem merge_length_le_min (metrics : List FilteredRow)
    (dates : List DatesRow)
    (hm : (metrics.map FilteredRow.model).Nodup)
    (hd : (dates.map DatesRow.model).Nodup) :
    (merge_with_dates metrics dates).length ≤
      min metrics.length dates.length := by
  refine le_min (merge_length_le_left dates hd metrics) ?_
  exact (merge_length_le_matched dates metrics hm).trans
    (List.length_filter_le _ _)

/-- C5 witness: two-row tables with distinct model keys. -/
theorem merge_length_scenario :
    (uniqMetrics.map FilteredRow.model).Nodup ∧
    (uniqDates.map DatesRow.model).Nodup ∧
    (merge_with_dates uniqMetrics uniqDates).length ≤
      min uniqMetrics.length uniqDates.length :=
  ⟨by decide, by decide,
    merge_length_le_min uniqMetrics uniqDates (by decide) (by decide)⟩

/-- C9: when a benchmark's local data file is absent, that one source is
skipped — load_other_benchmark yields an empty table, and the
load_all_benchmarks loop catches the file-not-found error — and the run
continues: loading succeeds, its outputs are exactly the benchmarks whose
files are present, and the absent benchmark is not among them. -/
theorem missing_file_source_skipped (fs : DataDir) (b : BenchmarkConfig)
    (hb : b ∈ BENCHMARKS) (habs : fs b.data_file = none) :
    load_other_benchmark fs b.id = some [] ∧
    ∃ out, load_all_benchmarks fs = Except.ok out ∧
      out.map Prod.fst =
        (BENCHMARKS.filter (fun c => (fs c.data_file).isSome)).map
          (fun c => c.id) ∧
      b.id ∉ out.map Prod.fst := by
  fin_cases hb <;> simp only [BenchmarkConfig.data_file] at habs
  · cases h2 : fs "healthbench_scores.csv" <;>
      cases h3 : fs "medqa_scores.csv" <;>
      cases h4 : fs "medhelm_scores.csv" <;>
      simp [load_other_benchmark, load_all_benchmarks, load_all_from,
        load_benchmark_data, BENCHMARKS, habs, h2, h3, h4]
  · cases h1 : fs "metrics.csv" <;>
      cases h3 : fs "medqa_scores.csv" <;>
      cases h4 : fs "medhelm_scores.csv" <;>
      simp [load_other_benchmark, load_all_benchmarks, load_all_from,
        load_benchmark_data, BENCHMARKS, habs, h1, h3, h4]
  · cases h1 : fs "metrics.csv" <;>
      cases h2 : fs "healthbench_scores.csv" <;>
      cases h4 : fs "medhelm_scores.csv" <;>
      simp [load_other_benchmark, load_all_benchmarks, load_all_from,
        load_benchmark_data, BENCHMARKS, habs, h1, h2, h4]
  · cases h1 : fs "metrics.csv" <;>
      cases h2 : fs "healthbench_scores.csv" <;>
      cases h3 : fs "medqa_scores.csv" <;>
      simp [load_other_benchmark, load_all_benchmarks, load_all_from,
        load_benchmark_data, BENCHMARKS, habs, h1, h2, h3]

/-- C9 witness: a data directory with no files at all, probed at MAST. -/
theorem missing_file_scenario :
    mastConfig ∈ BENCHMARKS ∧ emptyDataDir mastConfig.data_file = none ∧
    (load_other_benchmark emptyDataDir mastConfig.id = some [] ∧
      ∃ out, load_all_benchmarks emptyDataDir = Except.ok out ∧
        out.map Prod.fst =
          (BENCHMARKS.filter
            (fun c => (emptyDataDir c.data_file).isSome)).map
            (fun c => c.id) ∧
        mastConfig.id ∉ out.map Prod.fst) :=
  ⟨by decide, rfl,
    missing_file_source_skipped emptyDataDir mastConfig (by decide) rfl⟩
